import Mathlib

/-!
Shallow embedding of the order-matching and balance-accounting core of the
basana backtesting engine (`basana/backtesting/orders.py`,
`basana/backtesting/account_balances.py`, `basana/backtesting/helpers.py`,
`basana/core/pair.py`).

Python `Decimal` amounts are modelled as `ℚ` (all operations used by this
core are exact: `+`, `-`, `*`, `min`, `max`, comparisons).  Python dicts
mapping symbols to amounts are modelled as association lists
(`List (String × ℚ)`), with `alookup`/`aget`/`aset`/`aerase` mirroring
`d[k]` / `d.get(k, 0)` / `d[k] = v` / `d.pop(k)`.  Python `assert`
statements and `KeyError`-raising subscripts are modelled by returning
`Option` (`none` on a violated precondition).
-/

/-- First-match lookup in an association list; models Python `dict.get(k)`
(dicts built by this core never carry duplicate keys). -/
def alookup (k : String) : List (String × α) → Option α
  | [] => none
  | p :: rest => if p.1 = k then some p.2 else alookup k rest

/-- Dict assignment `d[k] = v`: replaces the first binding of `k`, or appends
a new binding at the end (Python dicts keep insertion order). -/
def aset (k : String) (v : α) : List (String × α) → List (String × α)
  | [] => [(k, v)]
  | p :: rest => if p.1 = k then (k, v) :: rest else p :: aset k v rest

/-- Dict removal `d.pop(k)` (the removal part; the popped value is obtained
with `alookup` first). -/
def aerase (k : String) : List (String × α) → List (String × α)
  | [] => []
  | p :: rest => if p.1 = k then rest else p :: aerase k rest

/-- A sparse symbol → amount mapping (`Dict[str, Decimal]`). -/
abbrev Amounts := List (String × ℚ)

/-- `d.get(symbol, Decimal(0))`. -/
def aget (m : Amounts) (k : String) : ℚ := (alookup k m).getD 0

/-- The keys of an association list. -/
def akeys (l : List (String × α)) : List String := l.map Prod.fst

/-- `helpers.add_amounts`: key-union merge, adding amounts per symbol. -/
def add_amounts (lhs rhs : Amounts) : Amounts :=
  ((akeys lhs ++ akeys rhs).dedup).map (fun k => (k, aget lhs k + aget rhs k))

/-- Python `abs` on decimals (computable form of `|q|`; see `pyabs_eq_abs`). -/
def pyabs (q : ℚ) : ℚ := if q < 0 then -q else q

/-- Python `min` on decimals (computable form of `min`; see `pymin_eq_min`). -/
def pymin (a b : ℚ) : ℚ := if a ≤ b then a else b

/-- Python `max` on decimals (computable form of `max`; see `pymax_eq_max`). -/
def pymax (a b : ℚ) : ℚ := if a ≤ b then b else a

/-- `OrderOperation` (`basana.core.enums`). -/
inductive OrderOperation where
  | BUY
  | SELL
  deriving DecidableEq, Repr

/-- `orders.OrderState`. -/
inductive OrderState where
  | OPEN
  | COMPLETED
  | CANCELED
  deriving DecidableEq, Repr

/-- `helpers.get_base_sign_for_operation`. -/
def get_base_sign_for_operation : OrderOperation → ℚ
  | .BUY => 1
  | .SELL => -1

/-- `pair.Pair`: an immutable (base_symbol, quote_symbol) trading pair. -/
structure Pair where
  base_symbol : String
  quote_symbol : String
  deriving DecidableEq, Repr

/-- `pair.Contract`: a futures contract extending `Pair` with a margin
requirement and a multiplier. -/
structure Contract extends Pair where
  margin_requirement : ℚ
  multiplier : ℤ
  deriving DecidableEq, Repr

/-- `bar.Bar` price fields (the timestamp and pair are irrelevant to the fill
computations embedded here; `open` is a Lean keyword, hence `open_`). -/
structure Bar where
  open_ : ℚ
  high : ℚ
  low : ℚ
  close : ℚ
  volume : ℚ
  deriving DecidableEq, Repr

/-- Modelled from the spec: the `liquidity.LiquidityStrategy` interface
(`basana/backtesting/liquidity.py` is not part of the sources; §4.2 of the
spec and the call sites in `orders.py` fix its interface: an
`available_liquidity` amount and a `calculate_price_impact(amount)`
function).  The "infinite liquidity" variant (impact 0, unbounded
availability) is expressed in theorems as a strategy with zero impact and
availability at least the amount at stake. -/
structure LiquidityStrategy where
  available_liquidity : ℚ
  calculate_price_impact : ℚ → ℚ

/-- `orders.Fill`: one fill record (timestamp modelled as ℕ). -/
structure Fill where
  when : ℕ
  balance_updates : Amounts
  fees : Amounts
  deriving DecidableEq, Repr

/-- The mutable state shared by every order kind (`orders.Order`).  Kind
specific fields (`limit_price`, `stop_price`, `stop_price_hit`) are passed
to the kind's functions explicitly. -/
structure OrderData where
  id : String
  operation : OrderOperation
  pair : Pair
  amount : ℚ
  state : OrderState
  balance_updates : Amounts
  fees : Amounts
  fills : List Fill
  deriving DecidableEq, Repr

/-- `Order.is_open`. -/
def OrderData.is_open (o : OrderData) : Bool := o.state = OrderState.OPEN

/-- `Order.amount_filled = abs(balance_updates.get(base_symbol, 0))`. -/
def OrderData.amount_filled (o : OrderData) : ℚ :=
  pyabs (aget o.balance_updates o.pair.base_symbol)

/-- `Order.amount_pending = amount - amount_filled`. -/
def OrderData.amount_pending (o : OrderData) : ℚ :=
  o.amount - o.amount_filled

/-- `Order.quote_amount_filled = abs(balance_updates.get(quote_symbol, 0))`. -/
def OrderData.quote_amount_filled (o : OrderData) : ℚ :=
  pyabs (aget o.balance_updates o.pair.quote_symbol)

/-- `Order.cancel`: asserts the order is OPEN, then moves it to CANCELED. -/
def OrderData.cancel (o : OrderData) : Option OrderData :=
  if o.state = OrderState.OPEN then some { o with state := OrderState.CANCELED }
  else none

/-- `Order.add_fill`: accumulates balance updates and fees, completes the
order once `amount_filled >= amount`, and records the fill. -/
def OrderData.add_fill (o : OrderData) (when : ℕ)
    (balance_updates fees : Amounts) : OrderData :=
  let o1 := { o with
    balance_updates := add_amounts o.balance_updates balance_updates,
    fees := add_amounts o.fees fees }
  let o2 := if o1.amount_filled ≥ o1.amount then
    { o1 with state := OrderState.COMPLETED } else o1
  { o2 with fills := o2.fills ++ [⟨when, balance_updates, fees⟩] }

/-- `orders.OrderInfo`. -/
structure OrderInfo where
  id : String
  is_open : Bool
  amount_filled : ℚ
  amount_remaining : ℚ
  quote_amount_filled : ℚ
  fees : Amounts
  deriving DecidableEq, Repr

/-- `OrderInfo.fill_price`: `None` when `amount_filled` is falsy (zero), else
`quote_amount_filled / amount_filled`. -/
def OrderInfo.fill_price (info : OrderInfo) : Option ℚ :=
  if info.amount_filled ≠ 0 then some (info.quote_amount_filled / info.amount_filled)
  else none

/-- `Order.get_order_info`: note the fees are negated and zero amounts are
dropped (`{symbol: -amount for symbol, amount in self._fees.items() if amount}`). -/
def OrderData.get_order_info (o : OrderData) : OrderInfo where
  id := o.id
  is_open := o.state = OrderState.OPEN
  amount_filled := o.amount_filled
  amount_remaining := o.amount_pending
  quote_amount_filled := o.quote_amount_filled
  fees := o.fees.filterMap (fun p => if p.2 ≠ 0 then some (p.1, -p.2) else none)

/-- `orders.slipped_price`: applies the liquidity strategy's price impact and
clamps to the optional caps. -/
def slipped_price (price : ℚ) (operation : OrderOperation) (amount : ℚ)
    (ls : LiquidityStrategy) (cap_low cap_high : Option ℚ) : ℚ :=
  let price_impact := ls.calculate_price_impact amount
  let price := match operation with
    | .BUY => price * (1 + price_impact)
    | .SELL => price * (1 - price_impact)
  let price := match cap_low with
    | some c => pymax price c
    | none => price
  match cap_high with
  | some c => pymin price c
  | none => price

/-- Python truthiness of an `Optional[Decimal]`: `if price:` is taken exactly
when the value is present and nonzero. -/
def decimalTruthy : Option ℚ → Bool
  | none => false
  | some q => q ≠ 0

/-- `MarketOrder.get_balance_updates`: fill-or-kill for the full pending
amount at the slipped open price, capped by the bar's extreme. -/
def MarketOrder.get_balance_updates (o : OrderData) (b : Bar)
    (ls : LiquidityStrategy) : Amounts :=
  if o.amount_pending > ls.available_liquidity then []
  else
    let amount := o.amount_pending
    let base_sign := get_base_sign_for_operation o.operation
    let price := match o.operation with
      | .BUY => slipped_price b.open_ o.operation amount ls none (some b.high)
      | .SELL => slipped_price b.open_ o.operation amount ls (some b.low) none
    [(o.pair.base_symbol, amount * base_sign),
     (o.pair.quote_symbol, price * amount * (-base_sign))]

/-- `MarketOrder.not_filled`: fill-or-kill, cancels the order. -/
def MarketOrder.not_filled (o : OrderData) : Option OrderData := o.cancel

/-- `LimitOrder.get_balance_updates`. -/
def LimitOrder.get_balance_updates (o : OrderData) (limit_price : ℚ)
    (b : Bar) (ls : LiquidityStrategy) : Amounts :=
  let amount := pymin o.amount_pending ls.available_liquidity
  let base_sign := get_base_sign_for_operation o.operation
  let price : Option ℚ := match o.operation with
    | .BUY =>
      if b.open_ < limit_price then
        some (slipped_price b.open_ o.operation amount ls none (some limit_price))
      else if b.low ≤ limit_price then some limit_price
      else none
    | .SELL =>
      if b.open_ > limit_price then
        some (slipped_price b.open_ o.operation amount ls (some limit_price) none)
      else if b.high ≥ limit_price then some limit_price
      else none
  if decimalTruthy price then
    [(o.pair.base_symbol, amount * base_sign),
     (o.pair.quote_symbol, price.getD 0 * amount * (-base_sign))]
  else []

/-- `StopOrder.get_balance_updates`: fill-or-kill; triggers at the open if the
stop is already satisfied there, else at the stop price if the intraday range
crosses it; the triggered price is then slipped and capped. -/
def StopOrder.get_balance_updates (o : OrderData) (stop_price : ℚ)
    (b : Bar) (ls : LiquidityStrategy) : Amounts :=
  if o.amount_pending > ls.available_liquidity then []
  else
    let amount := o.amount_pending
    let base_sign := get_base_sign_for_operation o.operation
    let price : Option ℚ := match o.operation with
      | .BUY =>
        let p : Option ℚ :=
          if b.open_ ≥ stop_price then some b.open_
          else if b.high ≥ stop_price then some stop_price
          else none
        if decimalTruthy p then
          some (slipped_price (p.getD 0) o.operation amount ls none (some b.high))
        else p
      | .SELL =>
        let p : Option ℚ :=
          if b.open_ ≤ stop_price then some b.open_
          else if b.low ≤ stop_price then some stop_price
          else none
        if decimalTruthy p then
          some (slipped_price (p.getD 0) o.operation amount ls (some b.low) none)
        else p
    if decimalTruthy price then
      [(o.pair.base_symbol, amount * base_sign),
       (o.pair.quote_symbol, price.getD 0 * amount * (-base_sign))]
    else []

/-- `StopOrder.not_filled`: fill-or-kill, cancels the order. -/
def StopOrder.not_filled (o : OrderData) : Option OrderData := o.cancel

/-- `StopLimitOrder.get_balance_updates_before_stop_hit` (requires
`stop_price_hit = False`): returns the balance updates together with the new
value of the `_stop_price_hit` flag. -/
def StopLimitOrder.get_balance_updates_before_stop_hit (o : OrderData)
    (stop_price limit_price : ℚ) (b : Bar) (ls : LiquidityStrategy) :
    Amounts × Bool :=
  let amount := pymin o.amount_pending ls.available_liquidity
  let base_sign := get_base_sign_for_operation o.operation
  let price_hit : Option ℚ × Bool := match o.operation with
    | .BUY =>
      if b.open_ ≥ stop_price then
        (if b.open_ ≤ limit_price then some b.open_
         else if b.low ≤ limit_price ∧ limit_price ≤ b.high then some limit_price
         else none, true)
      else if b.high ≥ stop_price then
        (if b.low ≤ limit_price ∧ limit_price ≤ b.high then some limit_price
         else none, true)
      else (none, false)
    | .SELL =>
      if b.open_ ≤ stop_price then
        (if b.open_ ≥ limit_price then some b.open_
         else if b.low ≤ limit_price ∧ limit_price ≤ b.high then some limit_price
         else none, true)
      else if b.low ≤ stop_price then
        (if b.low ≤ limit_price ∧ limit_price ≤ b.high then some limit_price
         else none, true)
      else (none, false)
  let price : Option ℚ := match price_hit.1 with
    | some p =>
      if p ≠ limit_price then
        some (match o.operation with
          | .BUY => slipped_price p o.operation amount ls none (some limit_price)
          | .SELL => slipped_price p o.operation amount ls (some limit_price) none)
      else some p
    | none => none
  (match price with
   | some p =>
     [(o.pair.base_symbol, amount * base_sign),
      (o.pair.quote_symbol, p * amount * (-base_sign))]
   | none => [], price_hit.2)

/-- `StopLimitOrder.get_balance_updates_after_stop_hit`: evaluates as a plain
limit order at the stored limit price. -/
def StopLimitOrder.get_balance_updates_after_stop_hit (o : OrderData)
    (limit_price : ℚ) (b : Bar) (ls : LiquidityStrategy) : Amounts :=
  let amount := pymin o.amount_pending ls.available_liquidity
  let base_sign := get_base_sign_for_operation o.operation
  let price : Option ℚ := match o.operation with
    | .BUY =>
      if b.open_ < limit_price then
        some (slipped_price b.open_ o.operation amount ls none (some limit_price))
      else if b.low ≤ limit_price then some limit_price
      else none
    | .SELL =>
      if b.open_ > limit_price then
        some (slipped_price b.open_ o.operation amount ls (some limit_price) none)
      else if b.high ≥ limit_price then some limit_price
      else none
  if decimalTruthy price then
    [(o.pair.base_symbol, amount * base_sign),
     (o.pair.quote_symbol, price.getD 0 * amount * (-base_sign))]
  else []

/-- `StopLimitOrder.get_balance_updates`: dispatches on the `_stop_price_hit`
flag; returns the balance updates and the flag's new value. -/
def StopLimitOrder.get_balance_updates (o : OrderData)
    (stop_price limit_price : ℚ) (stop_price_hit : Bool) (b : Bar)
    (ls : LiquidityStrategy) : Amounts × Bool :=
  if ¬ stop_price_hit then
    StopLimitOrder.get_balance_updates_before_stop_hit o stop_price limit_price b ls
  else
    (StopLimitOrder.get_balance_updates_after_stop_hit o limit_price b ls,
     stop_price_hit)

/-- The state shared by futures order kinds (`orders.FuturesOrder`): an order
over a `Contract` whose quantity is partitioned into an opening and a closing
portion, fixed at creation time. -/
structure FuturesOrderData where
  id : String
  operation : OrderOperation
  contract : Contract
  quantity : ℚ
  state : OrderState
  balance_updates : Amounts
  fees : Amounts
  opening_quantity : ℚ
  closing_quantity : ℚ
  deriving DecidableEq, Repr

/-- `Order.is_open` for futures orders. -/
def FuturesOrderData.is_open (o : FuturesOrderData) : Bool :=
  o.state = OrderState.OPEN

/-- `FuturesOrder.quantity_filled` (identical to the inherited
`Order.amount_filled`). -/
def FuturesOrderData.quantity_filled (o : FuturesOrderData) : ℚ :=
  pyabs (aget o.balance_updates o.contract.base_symbol)

/-- `Order.amount_filled` as inherited by `FuturesOrder` (the contract is the
order's pair). -/
def FuturesOrderData.amount_filled (o : FuturesOrderData) : ℚ :=
  pyabs (aget o.balance_updates o.contract.base_symbol)

/-- `Order.amount_pending` as inherited by `FuturesOrder`. -/
def FuturesOrderData.amount_pending (o : FuturesOrderData) : ℚ :=
  o.quantity - o.amount_filled

/-- `FuturesOrder.quantity_pending`. -/
def FuturesOrderData.quantity_pending (o : FuturesOrderData) : ℚ :=
  o.quantity - o.quantity_filled

/-- `MarketFuturesOrder.get_balance_updates`: fill-or-kill; note that the
result maps the base symbol to the signed quantity and the literal key
`"price"` to the realized fill price (no quote-symbol entry). -/
def MarketFuturesOrder.get_balance_updates (o : FuturesOrderData) (b : Bar)
    (ls : LiquidityStrategy) : Amounts :=
  if o.amount_pending > ls.available_liquidity then []
  else
    let quantity := o.quantity_pending
    let base_sign := get_base_sign_for_operation o.operation
    let price := match o.operation with
      | .BUY => slipped_price b.open_ o.operation quantity ls none (some b.high)
      | .SELL => slipped_price b.open_ o.operation quantity ls (some b.low) none
    [(o.contract.base_symbol, quantity * base_sign),
     ("price", price)]

/-- `MarketFuturesOrder.not_filled`: fill-or-kill, cancels the order. -/
def MarketFuturesOrder.not_filled (o : FuturesOrderData) : Option FuturesOrderData :=
  if o.state = OrderState.OPEN then some { o with state := OrderState.CANCELED }
  else none

/-- `StopFuturesOrder.get_balance_updates`: fill-or-kill stop order over a
contract; balance deltas in base and quote symbols. -/
def StopFuturesOrder.get_balance_updates (o : FuturesOrderData) (stop_price : ℚ)
    (b : Bar) (ls : LiquidityStrategy) : Amounts :=
  if o.quantity_pending > ls.available_liquidity then []
  else
    let quantity := o.quantity_pending
    let base_sign := get_base_sign_for_operation o.operation
    let price : Option ℚ := match o.operation with
      | .BUY =>
        let p : Option ℚ :=
          if b.open_ ≥ stop_price then some b.open_
          else if b.high ≥ stop_price then some stop_price
          else none
        if decimalTruthy p then
          some (slipped_price (p.getD 0) o.operation quantity ls none (some b.high))
        else p
      | .SELL =>
        let p : Option ℚ :=
          if b.open_ ≤ stop_price then some b.open_
          else if b.low ≤ stop_price then some stop_price
          else none
        if decimalTruthy p then
          some (slipped_price (p.getD 0) o.operation quantity ls (some b.low) none)
        else p
    if decimalTruthy price then
      [(o.contract.base_symbol, quantity * base_sign),
       (o.contract.quote_symbol, price.getD 0 * quantity * (-base_sign))]
    else []

/-- `StopFuturesOrder.not_filled`: fill-or-kill, cancels the order. -/
def StopFuturesOrder.not_filled (o : FuturesOrderData) : Option FuturesOrderData :=
  if o.state = OrderState.OPEN then some { o with state := OrderState.CANCELED }
  else none

/-- `account_balances.AccountBalances` state: settled balances plus holds,
aggregated by symbol and by order id. -/
structure AccountBalances where
  balances : Amounts
  holds_by_symbol : Amounts
  holds_by_order : List (String × Amounts)
  deriving DecidableEq, Repr

/-- `AccountBalances.get_balance_on_hold`. -/
def AccountBalances.get_balance_on_hold (st : AccountBalances) (symbol : String) : ℚ :=
  aget st.holds_by_symbol symbol

/-- `AccountBalances.get_available_balance = balances[s] - holds_by_symbol[s]`. -/
def AccountBalances.get_available_balance (st : AccountBalances) (symbol : String) : ℚ :=
  aget st.balances symbol - st.get_balance_on_hold symbol

/-- `AccountBalances.get_balance_on_hold_for_order`. -/
def AccountBalances.get_balance_on_hold_for_order (st : AccountBalances)
    (order_id symbol : String) : ℚ :=
  aget ((alookup order_id st.holds_by_order).getD []) symbol

/-- `AccountBalances._get_hold_symbol`: quote symbol for a BUY, base symbol
for a SELL. -/
def get_hold_symbol (o : OrderData) : String :=
  match o.operation with
  | .BUY => o.pair.quote_symbol
  | .SELL => o.pair.base_symbol

/-- `AccountBalances.order_accepted`: asserts the order is OPEN, not already
accepted, and the hold amount is nonnegative; reserves the hold amount on the
hold symbol. -/
def AccountBalances.order_accepted (st : AccountBalances) (o : OrderData)
    (required_balance : Amounts) : Option AccountBalances :=
  if o.state ≠ OrderState.OPEN then none
  else if (alookup o.id st.holds_by_order).isSome then none
  else
    let symbol := get_hold_symbol o
    let hold_amount := aget required_balance symbol
    if hold_amount < 0 then none
    else
      let holds : Amounts := [(symbol, hold_amount)]
      some { st with
        holds_by_symbol := add_amounts st.holds_by_symbol holds,
        holds_by_order := aset o.id holds st.holds_by_order }

/-- `AccountBalances.order_updated`: applies the balance updates to settled
balances; while the order is OPEN releases hold clamped by
`max(-amount_on_hold, amount_spent)` (asserting `amount_spent <= 0`); once
terminal, releases all remaining hold and pops the per-order entry. -/
def AccountBalances.order_updated (st : AccountBalances) (o : OrderData)
    (balance_updates : Amounts) : Option AccountBalances :=
  match alookup o.id st.holds_by_order with
  | none => none
  | some order_holds =>
    let balances := add_amounts st.balances balance_updates
    let symbol := get_hold_symbol o
    if o.is_open then
      match alookup symbol order_holds with
      | none => none
      | some amount_on_hold =>
        let amount_spent := aget balance_updates symbol
        if ¬ amount_spent ≤ 0 then none
        else
          let hold_updates : Amounts := [(symbol, pymax (-amount_on_hold) amount_spent)]
          some { balances := balances,
                 holds_by_order :=
                   aset o.id (add_amounts order_holds hold_updates) st.holds_by_order,
                 holds_by_symbol := add_amounts st.holds_by_symbol hold_updates }
    else
      let hold_updates : Amounts := order_holds.map (fun p => (p.1, -p.2))
      some { balances := balances,
             holds_by_order := aerase o.id st.holds_by_order,
             holds_by_symbol := add_amounts st.holds_by_symbol hold_updates }

/-- `account_balances.FuturesAccountBalances` state: the spot ledger plus
margins aggregated by symbol and by order id. -/
structure FuturesAccountBalances where
  balances : Amounts
  holds_by_symbol : Amounts
  holds_by_order : List (String × Amounts)
  margins_by_symbol : Amounts
  margins_by_order : List (String × Amounts)
  deriving DecidableEq, Repr

/-- `FuturesAccountBalances.get_balance_on_margin`. -/
def FuturesAccountBalances.get_balance_on_margin (st : FuturesAccountBalances)
    (symbol : String) : ℚ :=
  aget st.margins_by_symbol symbol

/-- `FuturesAccountBalances.get_balance_on_margin_for_order`. -/
def FuturesAccountBalances.get_balance_on_margin_for_order
    (st : FuturesAccountBalances) (order_id symbol : String) : ℚ :=
  aget ((alookup order_id st.margins_by_order).getD []) symbol

/-- `FuturesAccountBalances.get_balance_on_hold`. -/
def FuturesAccountBalances.get_balance_on_hold (st : FuturesAccountBalances)
    (symbol : String) : ℚ :=
  aget st.holds_by_symbol symbol

/-- `FuturesAccountBalances.get_available_balance` (inherited). -/
def FuturesAccountBalances.get_available_balance (st : FuturesAccountBalances)
    (symbol : String) : ℚ :=
  aget st.balances symbol - st.get_balance_on_hold symbol

/-- `FuturesAccountBalances.get_balance_on_hold_for_order` (inherited). -/
def FuturesAccountBalances.get_balance_on_hold_for_order
    (st : FuturesAccountBalances) (order_id symbol : String) : ℚ :=
  aget ((alookup order_id st.holds_by_order).getD []) symbol

/-- `FuturesAccountBalances.order_accepted`: same as the spot version, but the
hold symbol for futures is always the quote symbol
(`FuturesAccountBalances._get_hold_symbol`). -/
def FuturesAccountBalances.order_accepted (st : FuturesAccountBalances)
    (o : FuturesOrderData) (required_balance : Amounts) :
    Option FuturesAccountBalances :=
  if o.state ≠ OrderState.OPEN then none
  else if (alookup o.id st.holds_by_order).isSome then none
  else
    let symbol := o.contract.quote_symbol
    let hold_amount := aget required_balance symbol
    if hold_amount < 0 then none
    else
      let holds : Amounts := [(symbol, hold_amount)]
      some { st with
        holds_by_symbol := add_amounts st.holds_by_symbol holds,
        holds_by_order := aset o.id holds st.holds_by_order }

/-- `FuturesAccountBalances.order_margin_accepted`: asserts the order is OPEN
and not already margin-accepted; reserves the caller-supplied margin amount on
the margin symbol (the contract's quote symbol). -/
def FuturesAccountBalances.order_margin_accepted (st : FuturesAccountBalances)
    (o : FuturesOrderData) (required_margin_balance : Amounts) :
    Option FuturesAccountBalances :=
  if o.state ≠ OrderState.OPEN then none
  else if (alookup o.id st.margins_by_order).isSome then none
  else
    let symbol := o.contract.quote_symbol
    let margin_amount := aget required_margin_balance symbol
    let margins : Amounts := [(symbol, margin_amount)]
    some { st with
      margins_by_symbol := add_amounts st.margins_by_symbol margins,
      margins_by_order := aset o.id margins st.margins_by_order }

/-- `FuturesAccountBalances.order_updated`: the spot hold/balance bookkeeping
(with the futures hold symbol), followed by the margin bookkeeping.  While
the order is OPEN the margin is recomputed as
`opening_quantity * margin_requirement` (no-op when `opening_quantity == 0`);
once terminal it is recomputed as
`min(opening_quantity, quantity_filled) * margin_requirement`. -/
def FuturesAccountBalances.order_updated (st : FuturesAccountBalances)
    (o : FuturesOrderData) (balance_updates : Amounts) :
    Option FuturesAccountBalances :=
  match alookup o.id st.holds_by_order with
  | none => none
  | some order_holds =>
    let balances := add_amounts st.balances balance_updates
    let symbol := o.contract.quote_symbol
    let holds_part : Option (Amounts × List (String × Amounts)) :=
      if o.is_open then
        match alookup symbol order_holds with
        | none => none
        | some amount_on_hold =>
          let amount_spent := aget balance_updates symbol
          if ¬ amount_spent ≤ 0 then none
          else
            let hold_updates : Amounts := [(symbol, pymax (-amount_on_hold) amount_spent)]
            some (add_amounts st.holds_by_symbol hold_updates,
                  aset o.id (add_amounts order_holds hold_updates) st.holds_by_order)
      else
        let hold_updates : Amounts := order_holds.map (fun p => (p.1, -p.2))
        some (add_amounts st.holds_by_symbol hold_updates,
              aerase o.id st.holds_by_order)
    match holds_part with
    | none => none
    | some (holds_by_symbol, holds_by_order) =>
      let margin_symbol := o.contract.quote_symbol
      if o.is_open then
        if o.opening_quantity = 0 then
          some { balances := balances,
                 holds_by_symbol := holds_by_symbol,
                 holds_by_order := holds_by_order,
                 margins_by_symbol := st.margins_by_symbol,
                 margins_by_order := st.margins_by_order }
        else
          match alookup o.id st.margins_by_order with
          | none => none
          | some order_margins =>
            match alookup margin_symbol order_margins with
            | none => none
            | some amount_on_margin =>
              let new_amount_on_margin := o.opening_quantity * o.contract.margin_requirement
              let margin_updates : Amounts :=
                [(margin_symbol, new_amount_on_margin - amount_on_margin)]
              some { balances := balances,
                     holds_by_symbol := holds_by_symbol,
                     holds_by_order := holds_by_order,
                     margins_by_order :=
                       aset o.id (add_amounts order_margins margin_updates)
                         st.margins_by_order,
                     margins_by_symbol :=
                       add_amounts st.margins_by_symbol margin_updates }
      else
        let quantity := pymin o.opening_quantity o.quantity_filled
        let order_margins := (alookup o.id st.margins_by_order).getD []
        let amount_on_margin := aget order_margins margin_symbol
        let new_amount_on_margin := quantity * o.contract.margin_requirement
        let margin_updates : Amounts :=
          [(margin_symbol, new_amount_on_margin - amount_on_margin)]
        some { balances := balances,
               holds_by_symbol := holds_by_symbol,
               holds_by_order := holds_by_order,
               margins_by_order :=
                 aset o.id (add_amounts order_margins margin_updates)
                   st.margins_by_order,
               margins_by_symbol :=
                 add_amounts st.margins_by_symbol margin_updates }

/-- One call against a spot `AccountBalances` ledger. -/
inductive LedgerOp where
  | accepted (o : OrderData) (required_balance : Amounts)
  | updated (o : OrderData) (balance_updates : Amounts)

/-- Applies one ledger call. -/
def applyOp (st : AccountBalances) : LedgerOp → Option AccountBalances
  | .accepted o required => st.order_accepted o required
  | .updated o upd => st.order_updated o upd

/-- Runs a sequence of ledger calls, failing if any call violates its
preconditions. -/
def runOps (st : AccountBalances) : List LedgerOp → Option AccountBalances
  | [] => some st
  | op :: rest => (applyOp st op).bind (fun st1 => runOps st1 rest)

/-- The per-symbol total of all per-order holds. -/
def sumHolds (holds_by_order : List (String × Amounts)) (s : String) : ℚ :=
  (holds_by_order.map (fun p => aget p.2 s)).sum

/-- The ES/USD pair used by concrete scenarios. -/
def esusd : Pair := ⟨"ES", "USD"⟩

/-- A concrete liquidity strategy standing in for `InfiniteLiquidity` in
closed statements: zero price impact and availability far beyond any amount
at stake. -/
def infLiq : LiquidityStrategy := ⟨1000000000, fun _ => 0⟩

/-- The contract of the C1 scenario (margin requirement 1000 × 50). -/
def c1contract : Contract := ⟨⟨"ES", "USD"⟩, 50000, 50⟩

/-- The BUY market futures order of the C1 scenario: quantity 1, open, no
fills yet. -/
def c1order : FuturesOrderData :=
  ⟨"1", .BUY, c1contract, 1, .OPEN, [], [], 0, 0⟩

/-- The bar of the C1/C6 scenarios: opens at 4000.00. -/
def c1bar : Bar := ⟨4000, 4010.25, 3980.75, 4001.25, 1000⟩

/-- The contract of the C2 scenario (margin requirement 9500, multiplier 50,
as in the repository's own tests). -/
def c2contract : Contract := ⟨⟨"ES", "USD"⟩, 9500, 50⟩

/-- The C2 order as accepted: quantity 2, all of it opening a position. -/
def c2order_accept : FuturesOrderData :=
  ⟨"1", .BUY, c2contract, 2, .OPEN, [], [], 2, 0⟩

/-- The C2 order after a partial fill of 1 contract at 2.50 of hold spent:
still OPEN, `quantity_filled = 1 < opening_quantity = 2`. -/
def c2order_after_fill : FuturesOrderData :=
  ⟨"1", .BUY, c2contract, 2, .OPEN, [("ES", 1), ("USD", -2.5)], [], 2, 0⟩

/-- The initial futures ledger of the C2 scenario. -/
def c2init : FuturesAccountBalances := ⟨[("USD", 100000)], [], [], [], []⟩

/-- The C2 scenario run: accept the order with a 5 USD hold and a
19000 USD margin (= opening_quantity × margin_requirement), then apply a
partial fill while the order remains OPEN. -/
def c2run : Option FuturesAccountBalances :=
  (c2init.order_accepted c2order_accept [("USD", 5)]).bind fun st1 =>
  (st1.order_margin_accepted c2order_accept [("USD", 19000)]).bind fun st2 =>
  st2.order_updated c2order_after_fill [("ES", 1), ("USD", -2.5)]

/-- The BUY limit order of the C6 scenario: amount 2, open, no fills. -/
def c6order : OrderData := ⟨"1", .BUY, esusd, 2, .OPEN, [], [], []⟩

/-- The BUY stop-limit order of the C7 scenario: amount 1, open, no fills. -/
def c7order : OrderData := ⟨"1", .BUY, esusd, 1, .OPEN, [], [], []⟩

/-- The bar of the C7 scenario: open 3999, high 4002, low 3998. -/
def c7bar : Bar := ⟨3999, 4002, 3998, 4000, 1000⟩

/-- A concrete order for the C10 witness: filled 2 base at 100 quote spent,
fees of 3 USD and a zero BTC entry. -/
def c10order : OrderData :=
  ⟨"1", .BUY, ⟨"BTC", "USD"⟩, 2, .OPEN, [("BTC", 2), ("USD", -100)],
   [("USD", 3), ("BTC", 0)], []⟩

/-- The BTC/USD pair used by the ledger witnesses. -/
def btcusd : Pair := ⟨"BTC", "USD"⟩

/-- A freshly created BUY order used by the ledger witnesses. -/
def c4order : OrderData := ⟨"1", .BUY, btcusd, 2, .OPEN, [], [], []⟩

/-- `c4order` after a partial fill of 1 BTC for 40 USD. -/
def c4order_filled : OrderData :=
  ⟨"1", .BUY, btcusd, 2, .OPEN, [("BTC", 1), ("USD", -40)], [], []⟩

/-- The initial ledger of the C4 witness: no holds. -/
def c4init : AccountBalances := ⟨[("USD", 1000)], [], []⟩

/-- The ledger call sequence of the C4 witness: accept with a 100 USD hold,
then apply a partial fill spending 40 USD. -/
def c4ops : List LedgerOp :=
  [.accepted c4order [("USD", 100)],
   .updated c4order_filled [("BTC", 1), ("USD", -40)]]

/-- A spot ledger with one accepted order, used by the C3 witness. -/
def c3state : AccountBalances :=
  ⟨[("USD", 1000)], [("USD", 100)], [("1", [("USD", 100)])]⟩

/-- A futures ledger with the C2 order accepted (hold 5 USD, margin
19000 USD), used by the C2 witness. -/
def c2state : FuturesAccountBalances :=
  ⟨[("USD", 100000)], [("USD", 5)], [("1", [("USD", 5)])],
   [("USD", 19000)], [("1", [("USD", 19000)])]⟩

/-- The ledger state reached by running `c4ops` from `c4init`. -/
def c4final : AccountBalances :=
  ⟨[("BTC", 1), ("USD", 960)], [("USD", 60)], [("1", [("USD", 60)])]⟩

theorem alookup_eq_none_of_not_mem (l : List (String × α)) (s : String)
    (h : s ∉ akeys l) : alookup s l = none := by
  induction l with
  | nil => rfl
  | cons p rest ih =>
    have hp : ¬ p.1 = s := fun he => h (by simp [akeys, he])
    have hr : s ∉ akeys rest := fun hm => h (by simp [akeys] at hm ⊢; exact Or.inr hm)
    simp [alookup, hp, ih hr]

theorem aget_eq_zero_of_not_mem (l : Amounts) (s : String) (h : s ∉ akeys l) :
    aget l s = 0 := by
  simp [aget, alookup_eq_none_of_not_mem l s h]

theorem alookup_map_key (keys : List String) (f : String → ℚ) (s : String) :
    alookup s (keys.map (fun k => (k, f k))) =
      if s ∈ keys then some (f s) else none := by
  induction keys with
  | nil => simp [alookup]
  | cons k ks ih =>
    by_cases h : k = s
    · subst h; simp [alookup]
    · simp only [List.map_cons, alookup, if_neg h, ih, List.mem_cons]
      simp [Ne.symm h]

theorem aget_add_amounts (l r : Amounts) (s : String) :
    aget (add_amounts l r) s = aget l s + aget r s := by
  unfold add_amounts
  by_cases h : s ∈ (akeys l ++ akeys r).dedup
  · simp only [aget, alookup_map_key, if_pos h, Option.getD_some]
  · simp only [aget, alookup_map_key, if_neg h, Option.getD_none]
    rw [List.mem_dedup, List.mem_append] at h
    push_neg at h
    have h1 := aget_eq_zero_of_not_mem l s h.1
    have h2 := aget_eq_zero_of_not_mem r s h.2
    simp only [aget] at h1 h2
    rw [h1, h2]
    norm_num

theorem alookup_map_neg (l : Amounts) (s : String) :
    alookup s (l.map (fun p => (p.1, -p.2))) = (alookup s l).map (fun q => -q) := by
  induction l with
  | nil => rfl
  | cons p rest ih =>
    by_cases h : p.1 = s
    · simp [alookup, h]
    · simp [alookup, h, ih]

theorem aget_map_neg (l : Amounts) (s : String) :
    aget (l.map (fun p => (p.1, -p.2))) s = -(aget l s) := by
  simp only [aget, alookup_map_neg]
  cases alookup s l <;> simp

theorem alookup_aset_self (k : String) (v : α) (l : List (String × α)) :
    alookup k (aset k v l) = some v := by
  induction l with
  | nil => simp [aset, alookup]
  | cons p rest ih =>
    by_cases h : p.1 = k
    · simp [aset, alookup, h]
    · simp [aset, alookup, h, ih]

theorem alookup_aset_ne (k k' : String) (v : α) (l : List (String × α))
    (h : k' ≠ k) : alookup k' (aset k v l) = alookup k' l := by
  induction l with
  | nil => simp [aset, alookup, Ne.symm h]
  | cons p rest ih =>
    by_cases hp : p.1 = k
    · subst hp
      simp [aset, alookup, Ne.symm h]
    · simp only [aset, if_neg hp, alookup]
      by_cases hp' : p.1 = k'
      · simp [hp']
      · simp [hp', ih]

theorem aset_of_lookup_none (k : String) (v : α) (l : List (String × α))
    (h : alookup k l = none) : aset k v l = l ++ [(k, v)] := by
  induction l with
  | nil => rfl
  | cons p rest ih =>
    simp only [alookup] at h
    by_cases hp : p.1 = k
    · simp [hp] at h
    · simp only [aset, if_neg hp, List.cons_append, List.cons.injEq, true_and]
      exact ih (by simpa [hp] using h)

theorem aerase_append_of_lookup_none (k : String) (v : α) (l : List (String × α))
    (h : alookup k l = none) : aerase k (l ++ [(k, v)]) = l := by
  induction l with
  | nil => simp [aerase]
  | cons p rest ih =>
    simp only [alookup] at h
    by_cases hp : p.1 = k
    · simp [hp] at h
    · simp only [List.cons_append, aerase, if_neg hp, List.cons.injEq, true_and]
      exact ih (by simpa [hp] using h)

theorem sumHolds_append (l r : List (String × Amounts)) (s : String) :
    sumHolds (l ++ r) s = sumHolds l s + sumHolds r s := by
  simp [sumHolds]

theorem sumHolds_aset (hbo : List (String × Amounts)) (k : String)
    (m v : Amounts) (s : String) (h : alookup k hbo = some m) :
    sumHolds (aset k v hbo) s = sumHolds hbo s - aget m s + aget v s := by
  induction hbo with
  | nil => simp [alookup] at h
  | cons p rest ih =>
    by_cases hp : p.1 = k
    · simp only [alookup, if_pos hp, Option.some.injEq] at h
      subst h
      simp only [aset, if_pos hp, sumHolds, List.map_cons, List.sum_cons]
      ring
    · simp only [alookup, if_neg hp] at h
      simp only [aset, if_neg hp, sumHolds, List.map_cons, List.sum_cons]
      have := ih h
      simp only [sumHolds] at this
      rw [this]
      ring

theorem sumHolds_aerase (hbo : List (String × Amounts)) (k : String)
    (m : Amounts) (s : String) (h : alookup k hbo = some m) :
    sumHolds (aerase k hbo) s = sumHolds hbo s - aget m s := by
  induction hbo with
  | nil => simp [alookup] at h
  | cons p rest ih =>
    by_cases hp : p.1 = k
    · simp only [alookup, if_pos hp, Option.some.injEq] at h
      subst h
      simp only [aerase, if_pos hp, sumHolds, List.map_cons, List.sum_cons]
      ring
    · simp only [alookup, if_neg hp] at h
      simp only [aerase, if_neg hp, sumHolds, List.map_cons, List.sum_cons]
      have := ih h
      simp only [sumHolds] at this
      rw [this]
      ring

theorem alookup_aerase_self (k : String) (l : List (String × α))
    (hnd : (akeys l).Nodup) : alookup k (aerase k l) = none := by
  induction l with
  | nil => rfl
  | cons p rest ih =>
    simp only [akeys, List.map_cons, List.nodup_cons] at hnd
    by_cases hp : p.1 = k
    · simp only [aerase, if_pos hp]
      exact alookup_eq_none_of_not_mem rest k (hp ▸ hnd.1)
    · simp only [aerase, if_neg hp, alookup, if_neg hp]
      exact ih hnd.2

theorem aget_singleton (k : String) (v : ℚ) (s : String) :
    aget [(k, v)] s = if k = s then v else 0 := by
  by_cases h : k = s <;> simp [aget, alookup, h]

theorem alookup_filterMap_negdrop_none (l : Amounts) (s : String)
    (h : s ∉ akeys l) :
    alookup s (l.filterMap (fun p => if p.2 ≠ 0 then some (p.1, -p.2) else none))
      = none := by
  induction l with
  | nil => rfl
  | cons p rest ih =>
    have hp : ¬ p.1 = s := fun he => h (by simp [akeys, he])
    have hr : s ∉ akeys rest := fun hm => h (by simp [akeys] at hm ⊢; exact Or.inr hm)
    by_cases hz : p.2 ≠ 0
    · simp only [List.filterMap_cons, if_pos hz, alookup, if_neg hp]
      exact ih hr
    · simp only [List.filterMap_cons, if_neg hz]
      exact ih hr

theorem alookup_filterMap_negdrop (l : Amounts) (s : String)
    (hnd : (akeys l).Nodup) :
    alookup s (l.filterMap (fun p => if p.2 ≠ 0 then some (p.1, -p.2) else none))
      = (alookup s l).bind (fun a => if a ≠ 0 then some (-a) else none) := by
  induction l with
  | nil => rfl
  | cons p rest ih =>
    simp only [akeys, List.map_cons, List.nodup_cons] at hnd
    by_cases hp : p.1 = s
    · by_cases hz : p.2 ≠ 0
      · simp [List.filterMap_cons, hz, alookup, hp]
      · simp only [List.filterMap_cons, if_neg hz, alookup, if_pos hp]
        push_neg at hz
        simp only [hz, Option.some_bind, ne_eq, not_true_eq_false, if_neg,
          decide_not]
        rw [alookup_filterMap_negdrop_none rest s (hp ▸ hnd.1)]
        simp
    · by_cases hz : p.2 ≠ 0
      · simp only [List.filterMap_cons, if_pos hz, alookup, if_neg hp]
        exact ih hnd.2
      · simp only [List.filterMap_cons, if_neg hz, alookup, if_neg hp]
        exact ih hnd.2

theorem after_stop_hit_eq_limit (o : OrderData) (limit_price : ℚ) (b : Bar)
    (ls : LiquidityStrategy) :
    StopLimitOrder.get_balance_updates_after_stop_hit o limit_price b ls
      = LimitOrder.get_balance_updates o limit_price b ls := rfl

theorem pyabs_eq_abs (q : ℚ) : pyabs q = |q| := by
  unfold pyabs
  split
  · exact (abs_of_neg (by assumption)).symm
  · exact (abs_of_nonneg (not_lt.mp (by assumption))).symm

theorem pymin_eq_min (a b : ℚ) : pymin a b = min a b := (min_def a b).symm

theorem pymax_eq_max (a b : ℚ) : pymax a b = max a b := (max_def a b).symm

/-- C1: the spec's concrete scenario claims that a BUY `MarketFuturesOrder` of
quantity 1, against a bar opening at 4000.00 under infinite liquidity, yields
balance updates `{ES: 1, USD: -4000.00}`.  On the code this is false: the
result carries no `USD` entry at all — `MarketFuturesOrder.get_balance_updates`
returns the base delta together with the realized fill price under the literal
key `"price"`, i.e. `{ES: 1, price: 4000.00}`. -/
theorem C1_counterexample :
    MarketFuturesOrder.get_balance_updates c1order c1bar infLiq
      = [("ES", 1), ("price", 4000)] ∧
    alookup "USD" (MarketFuturesOrder.get_balance_updates c1order c1bar infLiq)
      = none := by
  constructor <;>
    norm_num +decide [MarketFuturesOrder.get_balance_updates, c1order, c1bar,
      c1contract, infLiq, FuturesOrderData.amount_pending,
      FuturesOrderData.amount_filled, FuturesOrderData.quantity_pending,
      FuturesOrderData.quantity_filled, slipped_price, pymin, pymax, pyabs,
      aget, alookup, get_base_sign_for_operation]

/-- C1 (amended): for a BUY `MarketFuturesOrder` with quantity 1 on the ES/USD
contract, processed against a bar with open 4000.00 under infinite liquidity
(zero price impact, availability at least the pending amount),
`get_balance_updates` returns `{ES: 1, price: 4000.00}`: the base delta
follows `base_symbol += amount`, and instead of a quote-symbol delta the
realized fill price is surfaced under the `"price"` key. -/
theorem C1_futures_market_buy_fill (ls : LiquidityStrategy)
    (himpact : ∀ q, ls.calculate_price_impact q = 0)
    (havail : 1 ≤ ls.available_liquidity) :
    MarketFuturesOrder.get_balance_updates c1order c1bar ls
      = [("ES", 1), ("price", 4000)] := by
  have hpend : c1order.amount_pending = 1 := by
    norm_num [c1order, FuturesOrderData.amount_pending,
      FuturesOrderData.amount_filled, pyabs, aget, alookup]
  have hqpend : c1order.quantity_pending = 1 := by
    norm_num [c1order, FuturesOrderData.quantity_pending,
      FuturesOrderData.quantity_filled, pyabs, aget, alookup]
  simp only [MarketFuturesOrder.get_balance_updates, hpend, hqpend,
    if_neg (not_lt.mpr havail), slipped_price, himpact]
  norm_num [c1order, c1contract, c1bar, get_base_sign_for_operation, pymin]

theorem C1_futures_market_buy_fill_witness :
    MarketFuturesOrder.get_balance_updates c1order c1bar infLiq
      = [("ES", 1), ("price", 4000)] :=
  C1_futures_market_buy_fill infLiq (fun _ => rfl) (by norm_num [infLiq])

/-- C2: the claim states that while an accepted futures order remains OPEN
with `opening_quantity > 0`, `order_updated` recomputes the reserved margin as
`min(opening_quantity, quantity_filled) × margin_requirement`.  On the code
this is false: with opening_quantity 2, quantity_filled 1 and margin
requirement 9500, the margin after the update is 19000
(= opening_quantity × margin_requirement), not min(2, 1) × 9500 = 9500. -/
theorem C2_counterexample :
    c2run.map (fun st => st.get_balance_on_margin_for_order "1" "USD")
      = some 19000 ∧
    (19000 : ℚ) ≠ min c2order_after_fill.opening_quantity c2order_after_fill.quantity_filled
      * c2contract.margin_requirement := by
  constructor
  · norm_num +decide [c2run, c2init, c2order_accept, c2order_after_fill,
      c2contract, FuturesAccountBalances.order_accepted,
      FuturesAccountBalances.order_margin_accepted,
      FuturesAccountBalances.order_updated,
      FuturesAccountBalances.get_balance_on_margin_for_order,
      FuturesOrderData.is_open, FuturesOrderData.quantity_filled,
      FuturesOrderData.amount_filled, add_amounts, aget, alookup, aset, akeys,
      pyabs, pymin, pymax, Option.bind]
  · norm_num [c2order_after_fill, c2contract, FuturesOrderData.quantity_filled,
      pyabs, aget, alookup, min_def]

/-- C5: Market and Stop orders (spot and futures) are fill-or-kill: whenever
`amount_pending > available_liquidity`, `get_balance_updates` returns the
empty mapping, and `not_filled()` moves an OPEN order to CANCELED. -/
theorem C5_market_stop_fill_or_kill :
    (∀ (o : OrderData) (b : Bar) (ls : LiquidityStrategy),
      o.amount_pending > ls.available_liquidity →
      MarketOrder.get_balance_updates o b ls = []) ∧
    (∀ (o : OrderData) (stop_price : ℚ) (b : Bar) (ls : LiquidityStrategy),
      o.amount_pending > ls.available_liquidity →
      StopOrder.get_balance_updates o stop_price b ls = []) ∧
    (∀ (o : FuturesOrderData) (b : Bar) (ls : LiquidityStrategy),
      o.amount_pending > ls.available_liquidity →
      MarketFuturesOrder.get_balance_updates o b ls = []) ∧
    (∀ (o : FuturesOrderData) (stop_price : ℚ) (b : Bar) (ls : LiquidityStrategy),
      o.quantity_pending > ls.available_liquidity →
      StopFuturesOrder.get_balance_updates o stop_price b ls = []) ∧
    (∀ o : OrderData, o.state = .OPEN →
      MarketOrder.not_filled o = some { o with state := .CANCELED }) ∧
    (∀ o : OrderData, o.state = .OPEN →
      StopOrder.not_filled o = some { o with state := .CANCELED }) ∧
    (∀ o : FuturesOrderData, o.state = .OPEN →
      MarketFuturesOrder.not_filled o = some { o with state := .CANCELED }) ∧
    (∀ o : FuturesOrderData, o.state = .OPEN →
      StopFuturesOrder.not_filled o = some { o with state := .CANCELED }) := by
  refine ⟨?_, ?_, ?_, ?_, ?_, ?_, ?_, ?_⟩
  · intro o b ls h
    simp [MarketOrder.get_balance_updates, h]
  · intro o sp b ls h
    simp [StopOrder.get_balance_updates, h]
  · intro o b ls h
    simp [MarketFuturesOrder.get_balance_updates, h]
  · intro o sp b ls h
    simp [StopFuturesOrder.get_balance_updates, h]
  · intro o h
    simp [MarketOrder.not_filled, OrderData.cancel, h]
  · intro o h
    simp [StopOrder.not_filled, OrderData.cancel, h]
  · intro o h
    simp [MarketFuturesOrder.not_filled, h]
  · intro o h
    simp [StopFuturesOrder.not_filled, h]

theorem C5_market_stop_fill_or_kill_witness :
    MarketOrder.get_balance_updates ⟨"1", .BUY, esusd, 5, .OPEN, [], [], []⟩
      c1bar ⟨2, fun _ => 0⟩ = [] ∧
    MarketOrder.not_filled ⟨"1", .BUY, esusd, 5, .OPEN, [], [], []⟩
      = some ⟨"1", .BUY, esusd, 5, .CANCELED, [], [], []⟩ :=
  ⟨C5_market_stop_fill_or_kill.1 _ _ _
     (by norm_num [OrderData.amount_pending, OrderData.amount_filled, pyabs,
       aget, alookup]),
   C5_market_stop_fill_or_kill.2.2.2.2.1 _ rfl⟩

/-- C2 (amended): for every accepted FuturesOrder that remains OPEN after an
`order_updated` call with `opening_quantity > 0`,
`FuturesAccountBalances.order_updated` recomputes the order's reserved margin
as `opening_quantity × margin_requirement` and applies the delta versus the
previously reserved margin at both the per-order and per-symbol level (the
`min(opening_quantity, quantity_filled) × margin_requirement` recomputation
happens only once the order is no longer OPEN); if `opening_quantity == 0`,
margin bookkeeping is a no-op. -/
theorem C2_futures_margin_update (st : FuturesAccountBalances)
    (o : FuturesOrderData) (upd : Amounts) (order_holds : Amounts)
    (hacc : alookup o.id st.holds_by_order = some order_holds) :
    (o.state = .OPEN →
      ∀ aoh, alookup o.contract.quote_symbol order_holds = some aoh →
      aget upd o.contract.quote_symbol ≤ 0 →
      ((o.opening_quantity = 0 →
        ∃ st1, st.order_updated o upd = some st1 ∧
          st1.margins_by_symbol = st.margins_by_symbol ∧
          st1.margins_by_order = st.margins_by_order) ∧
       (∀ order_margins aom, o.opening_quantity ≠ 0 →
        alookup o.id st.margins_by_order = some order_margins →
        alookup o.contract.quote_symbol order_margins = some aom →
        ∃ st1, st.order_updated o upd = some st1 ∧
          st1.get_balance_on_margin_for_order o.id o.contract.quote_symbol
            = o.opening_quantity * o.contract.margin_requirement ∧
          st1.get_balance_on_margin o.contract.quote_symbol
            = st.get_balance_on_margin o.contract.quote_symbol
              + (o.opening_quantity * o.contract.margin_requirement - aom)))) ∧
    (o.state ≠ .OPEN →
      ∃ st1, st.order_updated o upd = some st1 ∧
        st1.get_balance_on_margin_for_order o.id o.contract.quote_symbol
          = min o.opening_quantity o.quantity_filled
            * o.contract.margin_requirement) := by
  constructor
  · intro hopen aoh hhold hspent
    have hop : o.is_open = true := by simp [FuturesOrderData.is_open, hopen]
    constructor
    · intro hzero
      simp only [FuturesAccountBalances.order_updated, hacc, hop, if_true,
        hhold, hzero, if_neg (not_not_intro hspent), if_pos rfl]
      exact ⟨_, rfl, rfl, rfl⟩
    · intro order_margins aom hnzero hml hmaom
      simp only [FuturesAccountBalances.order_updated, hacc, hop, if_true,
        hhold, if_neg (not_not_intro hspent), if_neg hnzero, hml, hmaom]
      refine ⟨_, rfl, ?_, ?_⟩
      · simp only [FuturesAccountBalances.get_balance_on_margin_for_order,
          alookup_aset_self, Option.getD_some]
        rw [aget_add_amounts, aget_singleton, if_pos rfl,
          show aget order_margins o.contract.quote_symbol = aom by
            simp [aget, hmaom]]
        ring
      · simp only [FuturesAccountBalances.get_balance_on_margin]
        rw [aget_add_amounts, aget_singleton, if_pos rfl]
  · intro hterm
    have hop : o.is_open = false := by simp [FuturesOrderData.is_open, hterm]
    simp only [FuturesAccountBalances.order_updated, hacc, hop,
      Bool.false_eq_true, if_false]
    refine ⟨_, rfl, ?_⟩
    simp only [FuturesAccountBalances.get_balance_on_margin_for_order,
      alookup_aset_self, Option.getD_some]
    rw [aget_add_amounts, aget_singleton, if_pos rfl, pymin_eq_min]
    ring

theorem C2_futures_margin_update_witness :
    ∃ st1, FuturesAccountBalances.order_updated c2state
        c2order_after_fill [] = some st1 ∧
      st1.get_balance_on_margin_for_order "1" "USD" = 2 * 9500 ∧
      st1.get_balance_on_margin "USD"
        = c2state.get_balance_on_margin "USD" + (2 * 9500 - 19000) :=
  ((C2_futures_margin_update c2state c2order_after_fill [] [("USD", 5)] rfl).1
    rfl 5 rfl (by norm_num [aget, alookup])).2
    [("USD", 19000)] 19000 (by norm_num [c2order_after_fill]) rfl rfl

/-- C3: for every accepted order, `AccountBalances.order_updated` applies the
balance updates to settled balances unconditionally (in both the OPEN and the
terminal branch); while the order is OPEN it decreases the order's hold on the
hold symbol by `min(amount_on_hold, |amount_spent|)` — computed as
`max(-amount_on_hold, amount_spent)` — never releasing more than was on hold
for that order; once terminal it releases all remaining hold and removes the
per-order entry. -/
theorem C3_order_updated_spot (st : AccountBalances) (o : OrderData)
    (upd : Amounts) (m : Amounts)
    (hacc : alookup o.id st.holds_by_order = some m)
    (hnd : (akeys st.holds_by_order).Nodup) :
    (∀ st1, st.order_updated o upd = some st1 →
      ∀ s, aget st1.balances s = aget st.balances s + aget upd s) ∧
    (o.state = .OPEN →
      ∀ aoh, alookup (get_hold_symbol o) m = some aoh →
      aget upd (get_hold_symbol o) ≤ 0 →
      ∃ st1, st.order_updated o upd = some st1 ∧
        st1.get_balance_on_hold_for_order o.id (get_hold_symbol o)
          = aoh - min aoh |aget upd (get_hold_symbol o)| ∧
        st1.get_balance_on_hold (get_hold_symbol o)
          = st.get_balance_on_hold (get_hold_symbol o)
            - min aoh |aget upd (get_hold_symbol o)| ∧
        pymax (-aoh) (aget upd (get_hold_symbol o))
          = -(min aoh |aget upd (get_hold_symbol o)|) ∧
        min aoh |aget upd (get_hold_symbol o)| ≤ aoh) ∧
    (o.state ≠ .OPEN →
      ∃ st1, st.order_updated o upd = some st1 ∧
        alookup o.id st1.holds_by_order = none ∧
        ∀ s, st1.get_balance_on_hold s = st.get_balance_on_hold s - aget m s) := by
  refine ⟨?_, ?_, ?_⟩
  · intro st1 h
    simp only [AccountBalances.order_updated, hacc] at h
    split at h
    · split at h
      · exact absurd h (by simp)
      · split at h
        · exact absurd h (by simp)
        · cases h
          intro s
          exact aget_add_amounts _ _ _
    · cases h
      intro s
      exact aget_add_amounts _ _ _
  · intro hopen aoh hhold hspent
    have hop : o.is_open = true := by simp [OrderData.is_open, hopen]
    have hid : pymax (-aoh) (aget upd (get_hold_symbol o))
        = -(min aoh |aget upd (get_hold_symbol o)|) := by
      rw [pymax_eq_max, abs_of_nonpos hspent]
      rcases le_total (-aoh) (aget upd (get_hold_symbol o)) with hc | hc
      · rw [max_eq_right hc, min_eq_right (by linarith)]
        ring
      · rw [max_eq_left hc, min_eq_left (by linarith)]
    simp only [AccountBalances.order_updated, hacc, hop, if_true, hhold,
      if_neg (not_not_intro hspent)]
    refine ⟨_, rfl, ?_, ?_, hid, min_le_left _ _⟩
    · simp only [AccountBalances.get_balance_on_hold_for_order,
        alookup_aset_self, Option.getD_some]
      rw [aget_add_amounts, aget_singleton, if_pos rfl,
        show aget m (get_hold_symbol o) = aoh by simp [aget, hhold], hid]
      ring
    · simp only [AccountBalances.get_balance_on_hold]
      rw [aget_add_amounts, aget_singleton, if_pos rfl, hid]
      ring
  · intro hterm
    have hop : o.is_open = false := by simp [OrderData.is_open, hterm]
    simp only [AccountBalances.order_updated, hacc, hop, Bool.false_eq_true,
      if_false]
    refine ⟨_, rfl, ?_, ?_⟩
    · exact alookup_aerase_self _ _ hnd
    · intro s
      simp only [AccountBalances.get_balance_on_hold]
      rw [aget_add_amounts, aget_map_neg]
      ring

theorem C3_order_updated_spot_witness :
    ∃ st1, AccountBalances.order_updated c3state c4order_filled
        [("BTC", 1), ("USD", -40)] = some st1 ∧
      st1.get_balance_on_hold_for_order "1" "USD"
        = 100 - min 100 |(-40 : ℚ)| ∧
      st1.get_balance_on_hold "USD"
        = c3state.get_balance_on_hold "USD" - min 100 |(-40 : ℚ)| ∧
      pymax (-100) (-40) = -(min 100 |(-40 : ℚ)|) ∧
      min 100 |(-40 : ℚ)| ≤ 100 :=
  (C3_order_updated_spot c3state c4order_filled [("BTC", 1), ("USD", -40)]
    [("USD", 100)] rfl (by simp [akeys, c3state])).2.1
    rfl 100 rfl
    (by norm_num +decide [aget, alookup, get_hold_symbol, c4order_filled, btcusd])

/-- C8: accepting an open order with hold H on its hold symbol, then
cancelling it with no intervening fills and applying `order_updated` with
empty balance updates, restores the available balance of every symbol (in
particular the hold symbol: the full H is released) and removes the
per-order hold entry. -/
theorem C8_accept_cancel_roundtrip (st : AccountBalances) (o : OrderData)
    (required : Amounts)
    (hopen : o.state = .OPEN)
    (hnew : alookup o.id st.holds_by_order = none)
    (hH : 0 ≤ aget required (get_hold_symbol o)) :
    ∃ st1, st.order_accepted o required = some st1 ∧
      st1.get_available_balance (get_hold_symbol o)
        = st.get_available_balance (get_hold_symbol o)
          - aget required (get_hold_symbol o) ∧
      ∃ st2, AccountBalances.order_updated st1
          { o with state := .CANCELED } [] = some st2 ∧
        (∀ s, st2.get_available_balance s = st.get_available_balance s) ∧
        alookup o.id st2.holds_by_order = none := by
  have hop : ({ o with state := OrderState.CANCELED } : OrderData).is_open
      = false := by
    simp [OrderData.is_open]
  refine ⟨⟨st.balances,
      add_amounts st.holds_by_symbol
        [(get_hold_symbol o, aget required (get_hold_symbol o))],
      aset o.id [(get_hold_symbol o, aget required (get_hold_symbol o))]
        st.holds_by_order⟩, ?_, ?_, ?_⟩
  · simp only [AccountBalances.order_accepted]
    rw [if_neg (by simp [hopen]), hnew]
    simp only [Option.isSome_none, Bool.false_eq_true, if_false]
    rw [if_neg (not_lt.mpr hH)]
  · simp only [AccountBalances.get_available_balance,
      AccountBalances.get_balance_on_hold]
    rw [aget_add_amounts, aget_singleton, if_pos rfl]
    ring
  · refine ⟨⟨add_amounts st.balances [],
      add_amounts (add_amounts st.holds_by_symbol
          [(get_hold_symbol o, aget required (get_hold_symbol o))])
        [(get_hold_symbol o, -(aget required (get_hold_symbol o)))],
      aerase o.id (aset o.id
        [(get_hold_symbol o, aget required (get_hold_symbol o))]
        st.holds_by_order)⟩, ?_, ?_, ?_⟩
    · simp only [AccountBalances.order_updated, alookup_aset_self, hop,
        Bool.false_eq_true, if_false, List.map_cons, List.map_nil]
    · intro s
      simp only [AccountBalances.get_available_balance,
        AccountBalances.get_balance_on_hold]
      rw [aget_add_amounts, aget_add_amounts, aget_add_amounts,
        aget_singleton, aget_singleton]
      have hnil : aget [] s = 0 := by simp [aget, alookup]
      rw [hnil]
      by_cases hs : get_hold_symbol o = s <;> simp [hs]
    · rw [aset_of_lookup_none _ _ _ hnew,
        aerase_append_of_lookup_none _ _ _ hnew]
      exact hnew

theorem C8_accept_cancel_roundtrip_witness :
    ∃ st1, AccountBalances.order_accepted ⟨[("USD", 1000)], [], []⟩ c4order
        [("USD", 100)] = some st1 ∧
      st1.get_available_balance "USD"
        = AccountBalances.get_available_balance ⟨[("USD", 1000)], [], []⟩ "USD"
          - 100 ∧
      ∃ st2, AccountBalances.order_updated st1
          { c4order with state := .CANCELED } [] = some st2 ∧
        (∀ s, st2.get_available_balance s
          = AccountBalances.get_available_balance ⟨[("USD", 1000)], [], []⟩ s) ∧
        alookup "1" st2.holds_by_order = none :=
  C8_accept_cancel_roundtrip ⟨[("USD", 1000)], [], []⟩ c4order
    [("USD", 100)] rfl rfl
    (by norm_num +decide [aget, alookup, get_hold_symbol, c4order, btcusd])

theorem applyOp_preserves_hold_invariant (st st1 : AccountBalances)
    (op : LedgerOp) (h : applyOp st op = some st1)
    (hinv : ∀ s, aget st.holds_by_symbol s = sumHolds st.holds_by_order s) :
    ∀ s, aget st1.holds_by_symbol s = sumHolds st1.holds_by_order s := by
  cases op with
  | accepted o required =>
    simp only [applyOp, AccountBalances.order_accepted] at h
    split at h
    · exact absurd h (by simp)
    · split at h
      · exact absurd h (by simp)
      · split at h
        · exact absurd h (by simp)
        · cases h
          intro s
          have hnone : alookup o.id st.holds_by_order = none := by
            rename_i hB _
            exact Option.not_isSome_iff_eq_none.mp (by simpa using hB)
          rw [aget_add_amounts, aset_of_lookup_none _ _ _ hnone,
            sumHolds_append, hinv s]
          simp [sumHolds]
  | updated o upd =>
    simp only [applyOp, AccountBalances.order_updated] at h
    split at h
    · exact absurd h (by simp)
    · rename_i order_holds hlk
      by_cases hop : o.is_open = true
      · rw [if_pos hop] at h
        split at h
        · exact absurd h (by simp)
        · rename_i aoh hial
          by_cases hsp : aget upd (get_hold_symbol o) ≤ 0
          · rw [if_neg (not_not_intro hsp)] at h
            cases h
            intro s
            rw [aget_add_amounts, sumHolds_aset _ _ _ _ _ hlk,
              aget_add_amounts, hinv s]
            ring
          · rw [if_pos hsp] at h
            exact absurd h (by simp)
      · rw [if_neg hop] at h
        cases h
        intro s
        rw [aget_add_amounts, aget_map_neg, sumHolds_aerase _ _ _ _ hlk,
          hinv s]
        ring

theorem runOps_preserves_hold_invariant (ops : List LedgerOp) :
    ∀ st final : AccountBalances, runOps st ops = some final →
    (∀ s, aget st.holds_by_symbol s = sumHolds st.holds_by_order s) →
    ∀ s, aget final.holds_by_symbol s = sumHolds final.holds_by_order s := by
  induction ops with
  | nil =>
    intro st final h hinv
    simp only [runOps, Option.some.injEq] at h
    exact h ▸ hinv
  | cons op rest ih =>
    intro st final h hinv
    simp only [runOps] at h
    rcases hap : applyOp st op with _ | st1 <;> rw [hap] at h
    · exact absurd h (by simp)
    · exact ih st1 final (by simpa using h)
        (applyOp_preserves_hold_invariant st st1 op hap hinv)

/-- C4: after any sequence of `order_accepted`/`order_updated` calls, each
satisfying its preconditions, starting from a ledger with no holds, the
per-symbol holds equal the sum of the per-order holds, and the available
balance of every symbol is `balances[s] - holds_by_symbol[s]`. -/
theorem C4_holds_invariant (ops : List LedgerOp) (init final : AccountBalances)
    (hbs0 : init.holds_by_symbol = []) (hbo0 : init.holds_by_order = [])
    (hrun : runOps init ops = some final) :
    ∀ s, aget final.holds_by_symbol s = sumHolds final.holds_by_order s ∧
      final.get_available_balance s
        = aget final.balances s - aget final.holds_by_symbol s := by
  intro s
  refine ⟨runOps_preserves_hold_invariant ops init final hrun ?_ s, rfl⟩
  intro t
  rw [hbs0, hbo0]
  simp [aget, alookup, sumHolds]

theorem C4_holds_invariant_witness :
    (aget c4final.holds_by_symbol "USD" = sumHolds c4final.holds_by_order "USD") ∧
    c4final.get_available_balance "USD"
      = aget c4final.balances "USD" - aget c4final.holds_by_symbol "USD" :=
  C4_holds_invariant c4ops c4init c4final rfl rfl
    (by norm_num +decide [runOps, applyOp, c4ops, c4init, c4order,
      c4order_filled, c4final, AccountBalances.order_accepted,
      AccountBalances.order_updated, OrderData.is_open, get_hold_symbol,
      btcusd, add_amounts, aget, alookup, aset, akeys, aerase, pymax, pyabs,
      Option.bind]) "USD"

/-- C6: a LimitOrder is never fill-or-kill: it fills quantity
`min(amount_pending, available_liquidity)`.  A BUY fills at the slipped open
price capped at limit_price when `open < limit_price`, else exactly at
limit_price when `low ≤ limit_price`, and not at all otherwise; SELL is the
mirror.  The first two conjuncts spell out the slipped, capped price. -/
theorem C6_limit_fill_rule (o : OrderData) (limit_price : ℚ) (b : Bar)
    (ls : LiquidityStrategy)
    (hopen : 0 < b.open_) (hlimit : 0 < limit_price)
    (himp : ∀ q, 0 ≤ ls.calculate_price_impact q) :
    (∀ price amount, slipped_price price .BUY amount ls none (some limit_price)
        = min (price * (1 + ls.calculate_price_impact amount)) limit_price) ∧
    (∀ price amount, slipped_price price .SELL amount ls (some limit_price) none
        = max (price * (1 - ls.calculate_price_impact amount)) limit_price) ∧
    (o.operation = .BUY →
      (b.open_ < limit_price →
        LimitOrder.get_balance_updates o limit_price b ls
          = [(o.pair.base_symbol, min o.amount_pending ls.available_liquidity),
             (o.pair.quote_symbol,
              -(slipped_price b.open_ .BUY
                  (min o.amount_pending ls.available_liquidity) ls none
                  (some limit_price)
                * min o.amount_pending ls.available_liquidity))]) ∧
      (¬ b.open_ < limit_price → b.low ≤ limit_price →
        LimitOrder.get_balance_updates o limit_price b ls
          = [(o.pair.base_symbol, min o.amount_pending ls.available_liquidity),
             (o.pair.quote_symbol,
              -(limit_price * min o.amount_pending ls.available_liquidity))]) ∧
      (¬ b.open_ < limit_price → ¬ b.low ≤ limit_price →
        LimitOrder.get_balance_updates o limit_price b ls = [])) ∧
    (o.operation = .SELL →
      (b.open_ > limit_price →
        LimitOrder.get_balance_updates o limit_price b ls
          = [(o.pair.base_symbol, -(min o.amount_pending ls.available_liquidity)),
             (o.pair.quote_symbol,
              slipped_price b.open_ .SELL
                  (min o.amount_pending ls.available_liquidity) ls
                  (some limit_price) none
                * min o.amount_pending ls.available_liquidity)]) ∧
      (¬ b.open_ > limit_price → b.high ≥ limit_price →
        LimitOrder.get_balance_updates o limit_price b ls
          = [(o.pair.base_symbol, -(min o.amount_pending ls.available_liquidity)),
             (o.pair.quote_symbol,
              limit_price * min o.amount_pending ls.available_liquidity)]) ∧
      (¬ b.open_ > limit_price → ¬ b.high ≥ limit_price →
        LimitOrder.get_balance_updates o limit_price b ls = [])) := by
  have hbuy_slip : ∀ price amount,
      slipped_price price .BUY amount ls none (some limit_price)
        = min (price * (1 + ls.calculate_price_impact amount)) limit_price := by
    intro price amount
    simp only [slipped_price, pymin_eq_min]
  have hsell_slip : ∀ price amount,
      slipped_price price .SELL amount ls (some limit_price) none
        = max (price * (1 - ls.calculate_price_impact amount)) limit_price := by
    intro price amount
    simp only [slipped_price, pymax_eq_max]
  refine ⟨hbuy_slip, hsell_slip, ?_, ?_⟩
  · intro hbuy
    refine ⟨?_, ?_, ?_⟩
    · intro hlt
      have hpos : 0 < slipped_price b.open_ .BUY
          (pymin o.amount_pending ls.available_liquidity) ls none
          (some limit_price) := by
        rw [hbuy_slip]
        refine lt_min ?_ hlimit
        have h1 : (0 : ℚ) < 1 + ls.calculate_price_impact
            (pymin o.amount_pending ls.available_liquidity) := by
          have := himp (pymin o.amount_pending ls.available_liquidity)
          linarith
        exact mul_pos hopen h1
      simp only [LimitOrder.get_balance_updates, hbuy, if_pos hlt,
        decimalTruthy, get_base_sign_for_operation, pymin_eq_min] at hpos ⊢
      rw [if_pos (by simpa using ne_of_gt hpos)]
      simp [Option.getD_some, mul_neg_one, mul_one, mul_comm]
    · intro hnlt hle
      simp only [LimitOrder.get_balance_updates, hbuy, if_neg hnlt,
        if_pos hle, decimalTruthy, get_base_sign_for_operation, pymin_eq_min]
      rw [if_pos (by simpa using ne_of_gt hlimit)]
      simp [mul_neg_one, mul_one]
    · intro hnlt hnle
      simp [LimitOrder.get_balance_updates, hbuy, if_neg hnlt, if_neg hnle,
        decimalTruthy]
  · intro hsell
    refine ⟨?_, ?_, ?_⟩
    · intro hgt
      have hpos : 0 < slipped_price b.open_ .SELL
          (pymin o.amount_pending ls.available_liquidity) ls
          (some limit_price) none := by
        rw [hsell_slip]
        exact lt_max_of_lt_right hlimit
      simp only [LimitOrder.get_balance_updates, hsell, if_pos hgt,
        decimalTruthy, get_base_sign_for_operation, pymin_eq_min] at hpos ⊢
      rw [if_pos (by simpa using ne_of_gt hpos)]
      simp [mul_neg_one, mul_one, mul_comm]
    · intro hngt hge
      simp only [LimitOrder.get_balance_updates, hsell, if_neg hngt,
        if_pos hge, decimalTruthy, get_base_sign_for_operation, pymin_eq_min]
      rw [if_pos (by simpa using ne_of_gt hlimit)]
      simp [mul_neg_one, mul_one]
    · intro hngt hnge
      simp [LimitOrder.get_balance_updates, hsell, if_neg hngt, if_neg hnge,
        decimalTruthy]

theorem C6_limit_fill_rule_witness :
    LimitOrder.get_balance_updates c6order 4001 c1bar infLiq
      = [("ES", 2), ("USD", -8000)] ∧
    slipped_price c1bar.open_ .BUY 2 infLiq none (some 4001) = 4000 ∧
    (4000 : ℚ) ≠ 4001 := by
  have h := ((C6_limit_fill_rule c6order 4001 c1bar infLiq
    (by norm_num [c1bar]) (by norm_num) (fun q => le_refl 0)).2.2.1 rfl).1
    (by norm_num [c1bar])
  have hmin : min c6order.amount_pending infLiq.available_liquidity = 2 := by
    norm_num [c6order, esusd, OrderData.amount_pending, OrderData.amount_filled,
      pyabs, aget, alookup, infLiq, min_def]
  have hslip : slipped_price c1bar.open_ .BUY 2 infLiq none (some 4001)
      = 4000 := by
    norm_num [slipped_price, infLiq, c1bar, pymin]
  rw [hmin, hslip] at h
  refine ⟨?_, hslip, by norm_num⟩
  rw [h]
  norm_num [c6order, esusd]

/-- C7: while `stop_hit` is false, a bar that triggers the stop without the
limit being reachable within that bar yields no fill and sets `stop_hit` to
true (conjuncts 1 and 2, BUY and SELL); once true the flag is never reset
(conjunct 3); with the flag set, `get_balance_updates` evaluates as a plain
Limit order at the stored limit price (conjunct 4).  Conjunct 5 is the
concrete scenario: BUY stop=4000 limit=4001 on bar(open=3999, high=4002,
low=3998) sets the flag and fills at limit_price in that same bar. -/
theorem C7_stop_limit_two_phase :
    (∀ (o : OrderData) (stop_price limit_price : ℚ) (b : Bar)
       (ls : LiquidityStrategy),
      o.operation = .BUY →
      (b.open_ ≥ stop_price ∨ b.high ≥ stop_price) →
      (b.open_ ≥ stop_price → ¬ b.open_ ≤ limit_price) →
      ¬ (b.low ≤ limit_price ∧ limit_price ≤ b.high) →
      StopLimitOrder.get_balance_updates o stop_price limit_price false b ls
        = ([], true)) ∧
    (∀ (o : OrderData) (stop_price limit_price : ℚ) (b : Bar)
       (ls : LiquidityStrategy),
      o.operation = .SELL →
      (b.open_ ≤ stop_price ∨ b.low ≤ stop_price) →
      (b.open_ ≤ stop_price → ¬ b.open_ ≥ limit_price) →
      ¬ (b.low ≤ limit_price ∧ limit_price ≤ b.high) →
      StopLimitOrder.get_balance_updates o stop_price limit_price false b ls
        = ([], true)) ∧
    (∀ (o : OrderData) (stop_price limit_price : ℚ) (b : Bar)
       (ls : LiquidityStrategy),
      (StopLimitOrder.get_balance_updates o stop_price limit_price true b ls).2
        = true) ∧
    (∀ (o : OrderData) (stop_price limit_price : ℚ) (b : Bar)
       (ls : LiquidityStrategy),
      (StopLimitOrder.get_balance_updates o stop_price limit_price true b ls).1
        = LimitOrder.get_balance_updates o limit_price b ls) ∧
    StopLimitOrder.get_balance_updates c7order 4000 4001 false c7bar infLiq
      = ([("ES", 1), ("USD", -4001)], true) := by
  refine ⟨?_, ?_, ?_, ?_, ?_⟩
  · intro o stop_price limit_price b ls hbuy htrig hno hnr
    simp only [StopLimitOrder.get_balance_updates, Bool.not_false, if_pos,
      StopLimitOrder.get_balance_updates_before_stop_hit, hbuy]
    by_cases h1 : b.open_ ≥ stop_price
    · simp [h1, hno h1, hnr]
    · rcases htrig with h | h
      · exact absurd h h1
      · simp [h1, h, hnr]
  · intro o stop_price limit_price b ls hsell htrig hno hnr
    simp only [StopLimitOrder.get_balance_updates, Bool.not_false, if_pos,
      StopLimitOrder.get_balance_updates_before_stop_hit, hsell]
    by_cases h1 : b.open_ ≤ stop_price
    · simp [h1, hno h1, hnr]
    · rcases htrig with h | h
      · exact absurd h h1
      · simp [h1, h, hnr]
  · intro o stop_price limit_price b ls
    simp [StopLimitOrder.get_balance_updates]
  · intro o stop_price limit_price b ls
    simp [StopLimitOrder.get_balance_updates, after_stop_hit_eq_limit]
  · norm_num +decide [StopLimitOrder.get_balance_updates,
      StopLimitOrder.get_balance_updates_before_stop_hit, c7order, c7bar,
      infLiq, esusd, OrderData.amount_pending, OrderData.amount_filled,
      pyabs, pymin, pymax, aget, alookup, slipped_price,
      get_base_sign_for_operation]

theorem C7_stop_limit_two_phase_witness :
    StopLimitOrder.get_balance_updates c7order 4000 3000 false
      ⟨4000, 4005, 3500, 4002, 1000⟩ infLiq = ([], true) :=
  C7_stop_limit_two_phase.1 c7order 4000 3000 ⟨4000, 4005, 3500, 4002, 1000⟩
    infLiq rfl (Or.inl (by norm_num)) (fun _ => by norm_num) (by norm_num)

/-- C9: for an open LimitOrder (and a StopLimitOrder after its stop was hit,
whose evaluation coincides with the plain limit evaluation) whose limit
condition is satisfied by the bar but whose available liquidity is zero,
`get_balance_updates` returns the non-empty mapping with zero base and quote
amounts instead of the empty mapping that signals no fill. -/
theorem C9_zero_liquidity_zero_amount_fill (o : OrderData) (limit_price : ℚ)
    (b : Bar) (ls : LiquidityStrategy)
    (hzero : ls.available_liquidity = 0)
    (hpend : 0 ≤ o.amount_pending)
    (hopen : 0 < b.open_) (hlimit : 0 < limit_price)
    (himp : ∀ q, 0 ≤ ls.calculate_price_impact q)
    (hcond : (o.operation = .BUY ∧ (b.open_ < limit_price ∨ b.low ≤ limit_price)) ∨
             (o.operation = .SELL ∧ (b.open_ > limit_price ∨ b.high ≥ limit_price))) :
    LimitOrder.get_balance_updates o limit_price b ls
      = [(o.pair.base_symbol, 0), (o.pair.quote_symbol, 0)] ∧
    StopLimitOrder.get_balance_updates_after_stop_hit o limit_price b ls
      = [(o.pair.base_symbol, 0), (o.pair.quote_symbol, 0)] ∧
    ([(o.pair.base_symbol, (0 : ℚ)), (o.pair.quote_symbol, 0)] : Amounts)
      ≠ [] := by
  have hamt : pymin o.amount_pending ls.available_liquidity = 0 := by
    rw [pymin_eq_min, hzero]
    exact min_eq_right hpend
  have hmain : LimitOrder.get_balance_updates o limit_price b ls
      = [(o.pair.base_symbol, 0), (o.pair.quote_symbol, 0)] := by
    rcases hcond with ⟨hbuy, hc⟩ | ⟨hsell, hc⟩
    · by_cases hlt : b.open_ < limit_price
      · have hpos : 0 < slipped_price b.open_ .BUY
            (pymin o.amount_pending ls.available_liquidity) ls none
            (some limit_price) := by
          simp only [slipped_price, pymin_eq_min]
          refine lt_min ?_ hlimit
          have := himp (pymin o.amount_pending ls.available_liquidity)
          have h1 : (0 : ℚ) < 1 + ls.calculate_price_impact
              (pymin o.amount_pending ls.available_liquidity) := by linarith
          exact mul_pos hopen h1
        simp only [LimitOrder.get_balance_updates, hbuy, if_pos hlt,
          decimalTruthy, get_base_sign_for_operation, hamt] at hpos ⊢
        rw [if_pos (by simpa using ne_of_gt hpos)]
        norm_num
      · have hle : b.low ≤ limit_price := by
          rcases hc with h | h
          · exact absurd h hlt
          · exact h
        simp only [LimitOrder.get_balance_updates, hbuy, if_neg hlt,
          if_pos hle, decimalTruthy, get_base_sign_for_operation, hamt]
        rw [if_pos (by simpa using ne_of_gt hlimit)]
        norm_num
    · by_cases hgt : b.open_ > limit_price
      · have hpos : 0 < slipped_price b.open_ .SELL
            (pymin o.amount_pending ls.available_liquidity) ls
            (some limit_price) none := by
          simp only [slipped_price, pymax_eq_max]
          exact lt_max_of_lt_right hlimit
        simp only [LimitOrder.get_balance_updates, hsell, if_pos hgt,
          decimalTruthy, get_base_sign_for_operation, hamt] at hpos ⊢
        rw [if_pos (by simpa using ne_of_gt hpos)]
        norm_num
      · have hge : b.high ≥ limit_price := by
          rcases hc with h | h
          · exact absurd h hgt
          · exact h
        simp only [LimitOrder.get_balance_updates, hsell, if_neg hgt,
          if_pos hge, decimalTruthy, get_base_sign_for_operation, hamt]
        rw [if_pos (by simpa using ne_of_gt hlimit)]
        norm_num
  exact ⟨hmain, (after_stop_hit_eq_limit o limit_price b ls).trans hmain,
    by simp⟩

theorem C9_zero_liquidity_zero_amount_fill_witness :
    LimitOrder.get_balance_updates c6order 4001 c1bar ⟨0, fun _ => 0⟩
      = [("ES", 0), ("USD", 0)] ∧
    StopLimitOrder.get_balance_updates_after_stop_hit c6order 4001 c1bar
      ⟨0, fun _ => 0⟩ = [("ES", 0), ("USD", 0)] ∧
    ([("ES", (0 : ℚ)), ("USD", 0)] : Amounts) ≠ [] :=
  C9_zero_liquidity_zero_amount_fill c6order 4001 c1bar ⟨0, fun _ => 0⟩ rfl
    (by norm_num [c6order, esusd, OrderData.amount_pending,
      OrderData.amount_filled, pyabs, aget, alookup])
    (by norm_num [c1bar]) (by norm_num) (fun q => le_refl 0)
    (Or.inl ⟨rfl, Or.inl (by norm_num [c1bar])⟩)

/-- C10: `get_order_info` reports fees equal to the order's accumulated fees
with each amount negated and zero-amount symbols removed (the order's own
`fees` field is untouched — `get_order_info` is a pure read), and
`OrderInfo.fill_price` is `None` exactly when `amount_filled` is zero,
otherwise `quote_amount_filled / amount_filled`. -/
theorem C10_order_info (o : OrderData)
    (hnd : (akeys o.fees).Nodup) :
    (∀ s, alookup s o.get_order_info.fees
       = (alookup s o.fees).bind (fun a => if a ≠ 0 then some (-a) else none)) ∧
    (o.get_order_info.fill_price = none ↔ o.amount_filled = 0) ∧
    (o.amount_filled ≠ 0 →
      o.get_order_info.fill_price
        = some (o.quote_amount_filled / o.amount_filled)) := by
  refine ⟨?_, ?_, ?_⟩
  · intro s
    simp only [OrderData.get_order_info]
    exact alookup_filterMap_negdrop o.fees s hnd
  · by_cases h : o.amount_filled = 0 <;>
      simp [OrderInfo.fill_price, OrderData.get_order_info, h]
  · intro h
    simp [OrderInfo.fill_price, OrderData.get_order_info, h]

theorem C10_order_info_witness :
    (alookup "USD" c10order.get_order_info.fees
      = (alookup "USD" c10order.fees).bind
          (fun a => if a ≠ 0 then some (-a) else none)) ∧
    (c10order.get_order_info.fill_price = none ↔ c10order.amount_filled = 0) ∧
    c10order.get_order_info.fill_price
      = some (c10order.quote_amount_filled / c10order.amount_filled) :=
  let h := C10_order_info c10order (by norm_num +decide [akeys, c10order])
  ⟨h.1 "USD", h.2.1,
   h.2.2 (by norm_num [c10order, OrderData.amount_filled, pyabs, aget, alookup])⟩
